import Mathlib

/-!
Verification of the qlbridge core (expr node model, datasource registry,
exec job builder) against its specification.

Shallow embedding conventions:
* Go machine integers (`int64`, `int`) are modelled as `Int` / `Nat`; none of
  the verified claims exercise an overflow boundary.
* Go `float64` values are modelled as `ℚ`; the two conversions the
  verified code performs are modelled with Go's semantics: `float64(int64)`
  as IEEE round-to-nearest-even at 53 significant bits (`floatOfInt`, not
  the exact embedding) and `int64(float64)` as int64-bounded truncation
  toward zero (`int64OfFloat`).
* `Pos` (byte-position metadata on every AST node) is omitted: no claim
  concerns source positions and no verified function reads them.
* Go maps are modelled as insertion-ordered association lists; the list
  order also stands in for Go's (unspecified) map iteration order, and is
  made explicit wherever a claim depends on it.
* Fallible Go functions returning `(T, error)` are modelled as
  `Except String T`; functions that log but do not fail return their
  warnings explicitly where a claim mentions the warning.
-/

namespace QlBridge

/-! ## Lexer tokens (package lex, external to src)

`lex.Token` carries a token type `T` and its raw text `V`; only those two
fields are read by the verified code.  The token-type constants below are
the ones named by `ValueTypeFromNode` plus a sample of the remaining
operators (equality, comparison, negation, BETWEEN, IN) so that the
"any other binary operator" default case is inhabited. -/

inductive TokenT where
  | logicAnd
  | logicOr
  | multiply
  | minus
  | add
  | divide
  | modulus
  | equal
  | ne
  | gt
  | lt
  | negate
  | between
  | inTok
  deriving DecidableEq, Repr

structure Token where
  t : TokenT
  v : String
  deriving DecidableEq, Repr

/-! ## Go string helpers (package strings, external)

Modelled directly over `List Char` so that every use is computable by the
kernel and amenable to induction. -/

/-- Go `strings.ToLower` on one character, restricted to the ASCII range
(every name and table in the verified claims is ASCII; Go additionally
folds non-ASCII Unicode, which no claim exercises). -/
def charToLower (c : Char) : Char :=
  if 65 ≤ c.toNat ∧ c.toNat ≤ 90 then Char.ofNat (c.toNat + 32) else c

/-- Go `strings.ToLower`: character-wise `charToLower`. -/
def strToLower (s : String) : String := ⟨s.data.map charToLower⟩

/-- Go `strings.Split(s, ".")` over the character list: split at every
`'.'`; the empty string splits to `[[]]`, i.e. `[""]`, as in Go. -/
def splitDotAux : List Char → List (List Char)
  | [] => [[]]
  | c :: rest =>
      if c = '.' then [] :: splitDotAux rest
      else
        match splitDotAux rest with
        | [] => [[c]]
        | p :: ps => (c :: p) :: ps

/-- Go `strings.Split(s, ".")`. -/
def splitDot (s : String) : List String :=
  (splitDotAux s.data).map (fun l => ⟨l⟩)

/-! ## reflect.Kind (Go standard library, external)

Only the kinds that the `Type()` methods in the source can return are
modelled: `floatRv` (Float64), `stringRv` (String), `boolRv` (Bool) and
`nilRv` (Invalid). -/

inductive Kind where
  | float64K
  | stringK
  | boolK
  | invalidK
  deriving DecidableEq, Repr

/-! ## The expression node model (package expr) -/

/-- `expr.Func`: a function descriptor.  Go stores `Args []reflect.Value`
and only ever reads `len(F.Args)` and `F.Args[i].Kind()`, so the argument
prototypes are modelled by their kinds; `Return` likewise by its kind.
The `ReturnValueType` and the reflective `F` field are never read by the
verified code and are omitted. -/
structure Func where
  name : String
  args : List Kind
  variadicArgs : Bool
  returnKind : Kind

/-- `expr.NumberNode`: a numeric literal, dual-stored as integer and float. -/
structure NumberNode where
  isInt : Bool
  isFloat : Bool
  int64 : Int
  float64 : ℚ
  text : String
  deriving DecidableEq, Repr

/-- `expr.IdentityNode`: an identifier, with the lazily-cached `left`/`right`
split (Go zero value for both cache fields is `""`).  `quote` models the Go
`Quote byte` field (0 = unquoted). -/
structure IdentityNode where
  quote : Nat
  text : String
  left : String
  right : String
  deriving DecidableEq, Repr

/-- `expr.Node`: the closed set of AST variants defined in the source.
`StringNode`, `NullNode`, `BinaryNode`, `UnaryNode`, `TriNode`,
`MultiArgNode` and `FuncNode` are inlined as constructors carrying exactly
the fields of the corresponding Go structs (minus `Pos`). -/
inductive Node where
  | identity (n : IdentityNode)
  | str (text : String)
  | number (n : NumberNode)
  | null
  | binary (paren : Bool) (a b : Node) (op : Token)
  | unary (arg : Node) (op : Token)
  | tri (a b c : Node) (op : Token)
  | multiArg (args : List Node) (op : Token)
  | func (name : String) (f : Func) (args : List Node)

/-- `NodeValueType.Type()` as implemented per variant in the source:
`FuncNode` returns `f.Return`; `NumberNode` returns `floatRv`;
`StringNode` and `IdentityNode` return `stringRv`; `NullNode` returns
`nilRv`; `BinaryNode` returns its first argument's type (every variant
implements `NodeValueType`, so the `ok` branch is always taken);
`TriNode`, `UnaryNode` and `MultiArgNode` return `boolRv`. -/
def Node.typeKind : Node → Kind
  | .identity _ => .stringK
  | .str _ => .stringK
  | .number _ => .float64K
  | .null => .invalidK
  | .binary _ a _ _ => a.typeKind
  | .unary _ _ => .boolK
  | .tri _ _ _ _ => .boolK
  | .multiArg _ _ => .boolK
  | .func _ f _ => f.returnKind

mutual

/-- `Node.String()` as implemented per variant: identity/string/number
render their text, null renders `"NULL"`, unary renders operator text then
argument (`fmt.Sprintf("%s%s", Operator.V, Arg)`), func renders
`name(arg, arg, ...)`, and binary/tri/multi-arg forward to `StringAST` —
the forwarded `StringAST` bodies are inlined here so the mutual definition
stays structurally recursive (and hence kernel-computable). -/
def Node.string : Node → String
  | .identity n => n.text
  | .str text => text
  | .number n => n.text
  | .null => "NULL"
  | .binary paren a b op =>
      if paren then "(" ++ a.stringAST ++ " " ++ op.v ++ " " ++ b.stringAST ++ ")"
      else a.stringAST ++ " " ++ op.v ++ " " ++ b.stringAST
  | .unary arg op => op.v ++ arg.string
  | .tri a b c _ => a.string ++ " BETWEEN " ++ b.string ++ " AND " ++ c.stringAST
  | .multiArg args op =>
      match args with
      | [] => ""   -- Go faults here (`make([]string, -1)`); unreachable for parsed nodes
      | a :: rest => a.stringAST ++ " " ++ op.v ++ " (" ++ stringASTJoinComma rest ++ ")"
  | .func nm _ args => nm ++ "(" ++ stringJoin args ++ ")"

/-- `Node.StringAST()` as implemented per variant.  String literals use
`%q` (modelled as plain double quotes, escaping omitted — no claim depends
on it); a quoted identity is wrapped in its quote byte; unary renders
`NOT arg` for the negate token else `op(arg)`; tri mixes `String` (first
two args) with `StringAST` (third) exactly as the source does. -/
def Node.stringAST : Node → String
  | .identity n =>
      if n.quote = 0 then n.text
      else String.singleton (Char.ofNat n.quote) ++ n.text ++ String.singleton (Char.ofNat n.quote)
  | .str text => "\"" ++ text ++ "\""
  | .number n => n.text
  | .null => "NULL"
  | .binary paren a b op =>
      if paren then "(" ++ a.stringAST ++ " " ++ op.v ++ " " ++ b.stringAST ++ ")"
      else a.stringAST ++ " " ++ op.v ++ " " ++ b.stringAST
  | .unary arg op =>
      if op.t = .negate then "NOT " ++ arg.stringAST
      else op.v ++ "(" ++ arg.stringAST ++ ")"
  | .tri a b c _ => a.string ++ " BETWEEN " ++ b.string ++ " AND " ++ c.stringAST
  | .multiArg args op =>
      match args with
      | [] => ""   -- Go faults here (`make([]string, -1)`); unreachable for parsed nodes
      | a :: rest => a.stringAST ++ " " ++ op.v ++ " (" ++ stringASTJoinComma rest ++ ")"
  | .func nm _ args => nm ++ "(" ++ stringASTJoin args ++ ")"

/-- `", "`-join of `String()` renderings (the `FuncNode.String` loop). -/
def stringJoin : List Node → String
  | [] => ""
  | [a] => a.string
  | a :: rest => a.string ++ ", " ++ stringJoin rest

/-- `", "`-join of `StringAST()` renderings (the `FuncNode.StringAST` loop). -/
def stringASTJoin : List Node → String
  | [] => ""
  | [a] => a.stringAST
  | a :: rest => a.stringAST ++ ", " ++ stringASTJoin rest

/-- `","`-join of `StringAST()` renderings (`strings.Join` in `MultiArgNode.StringAST`). -/
def stringASTJoinComma : List Node → String
  | [] => ""
  | [a] => a.stringAST
  | a :: rest => a.stringAST ++ "," ++ stringASTJoinComma rest

end

mutual

/-- `Node.Check()` as implemented per variant.  Every variant except
`UnaryNode` and `FuncNode` returns nil.  `UnaryNode.Check` type-switches on
its argument: the `case Node` arm matches every (non-nil) argument, so it
recurses.  `FuncNode.Check` first runs the arity if/else-chain, then loops
over the arguments: in the Go type switch `case Node:` matches every
element of `c.Args []Node`, so the `case value.Value:` arm (the declared
parameter-kind comparison) is unreachable and the loop only recurses into
each argument, returning the first error.  An error is modelled as
`some message`; nil as `none`. -/
def Node.check : Node → Option String
  | .identity _ => none
  | .str _ => none
  | .number _ => none
  | .null => none
  | .binary _ _ _ _ => none
  | .unary arg _ => arg.check
  | .tri _ _ _ _ => none
  | .multiArg _ _ => none
  | .func nm f args =>
      if args.length < f.args.length && !f.variadicArgs then
        some ("parse: not enough arguments for " ++ nm ++ "  supplied:" ++
          toString args.length ++ "  f.Args:" ++ toString f.args.length)
      else if decide (args.length ≥ f.args.length) && f.variadicArgs then
        checkArgs args
      else if decide (args.length > f.args.length) then
        some ("parse: too many arguments for " ++ nm ++ " want:" ++
          toString f.args.length ++ " got:" ++ toString args.length)
      else
        checkArgs args

/-- The `for i, a := range c.Args` loop of `FuncNode.Check`: run each
argument's own `Check` in order and return the first failure. -/
def checkArgs : List Node → Option String
  | [] => none
  | a :: rest =>
      match a.check with
      | some e => some e
      | none => checkArgs rest

end

/-- Truncation of a rational toward zero (`Int.tdiv` is T-division). -/
def ratTrunc (q : ℚ) : Int := q.num.tdiv (q.den : Int)

/-- Smallest int64 value. -/
def minInt64 : Int := -(2 ^ 63)

/-- Largest int64 value. -/
def maxInt64 : Int := 2 ^ 63 - 1

/-- Go's `int64(f)` conversion: truncate toward zero; when the truncated
value does not fit in int64 the Go spec leaves the result
implementation-dependent — modelled as gc/amd64's `0x8000000000000000`
(= `minInt64`).  The only parse-reachable float64 at which the choice of
implementation-dependent value can change `NewNumber`'s round-trip test is
`f = 2^63` exactly; no verified claim touches it. -/
def int64OfFloat (f : ℚ) : Int :=
  let t := ratTrunc f
  if minInt64 ≤ t ∧ t ≤ maxInt64 then t else minInt64

/-- Number of binary digits of `n` (0 for 0).  Fuel-based (the value is
always enough fuel) so the kernel can evaluate it. -/
def bitLenAux (fuel n : Nat) : Nat :=
  match fuel with
  | 0 => 0
  | fuel + 1 => if n = 0 then 0 else bitLenAux fuel (n / 2) + 1

/-- Number of binary digits of `n` (0 for 0). -/
def bitLen (n : Nat) : Nat := bitLenAux n n

/-- Go's `float64(n)` conversion on an integer: IEEE-754 round to nearest,
ties to even, at 53 significant bits.  A magnitude below `2^53` is exact;
otherwise the trailing `bitLen - 53` bits are rounded away.  Every int64
is far below the float64 overflow threshold, so no overflow case arises;
the result of rounding an integer is always an integer, so it is computed
in `Int` and cast into the `ℚ` float model. -/
def floatOfInt (n : Int) : ℚ :=
  if n.natAbs < 2 ^ 53 then (n : ℚ)
  else
    let a := n.natAbs
    let shift := bitLen a - 53
    let q := a / 2 ^ shift
    let r := a % 2 ^ shift
    let half := 2 ^ (shift - 1)
    let q' := if half < r then q + 1
              else if r < half then q
              else if q % 2 = 0 then q else q + 1
    (((if n < 0 then -1 else 1) * (q' * 2 ^ shift : Nat) : Int) : ℚ)

/-- The `fmt.Errorf("illegal number syntax: %q", text)` message (the `%q`
quoting is modelled as plain double quotes). -/
def illegalNumberMsg (text : String) : String :=
  "illegal number syntax: \"" ++ text ++ "\""

/-- `expr.NewNumber`.  The two Go standard-library calls
`strconv.ParseInt(text, 0, 64)` and `strconv.ParseFloat(text, 64)` are
external to this repository; their results on `text` enter the model as the
parameters `parseIntRes` / `parseFloatRes` (`none` = parse error).  The
body then follows the source line by line: a successful integer parse sets
`IsInt`/`Int64`; an integer node is promoted with `Float64 =
float64(Int64)` — the rounding conversion `floatOfInt`; otherwise a
successful float parse sets `IsFloat`/`Float64` and back-promotes the
integer exactly when `float64(int64(f)) == f`, i.e. when
`floatOfInt (int64OfFloat f) = f`; if neither flag is set the constructor
fails. -/
def NewNumber (parseIntRes : Option Int) (parseFloatRes : Option ℚ)
    (text : String) : Except String NumberNode :=
  let n0 : NumberNode := ⟨false, false, 0, 0, text⟩
  let n1 : NumberNode :=
    match parseIntRes with
    | some u => { n0 with isInt := true, int64 := u }
    | none => n0
  let n2 : NumberNode :=
    if n1.isInt then
      { n1 with isFloat := true, float64 := floatOfInt n1.int64 }
    else
      match parseFloatRes with
      | some f =>
          let n' : NumberNode := { n1 with isFloat := true, float64 := f }
          if !n'.isInt && decide (floatOfInt (int64OfFloat f) = f) then
            { n' with isInt := true, int64 := int64OfFloat f }
          else n'
      | none => n1
  if !n2.isInt && !n2.isFloat then .error (illegalNumberMsg text)
  else .ok n2

/-- `IdentityNode.LeftRight`.  Mutation of the receiver's cache fields is
modelled by returning the updated node alongside the result triple.
`strings.Split(m.Text, ".")` is `splitDot m.text`. -/
def IdentityNode.LeftRight (m : IdentityNode) : (String × String × Bool) × IdentityNode :=
  if m.left = "" then
    match splitDot m.text with
    | [_] =>
        let m' : IdentityNode := { m with left := m.text }
        ((m'.left, m'.right, m'.right ≠ ""), m')
    | [a, b] =>
        let m' : IdentityNode := { m with left := a, right := b }
        ((m'.left, m'.right, m'.right ≠ ""), m')
    | _ => ((m.text, "", false), m)
  else ((m.left, m.right, m.right ≠ ""), m)

/-- `expr.FindIdentityField`: first-branch-only descent for the first
identity's text (the `for ... range` loops return on their first
iteration; an empty argument list falls through to `return ""`). -/
def FindIdentityField : Node → String
  | .identity n => n.text
  | .binary _ a _ _ => FindIdentityField a
  | .func _ _ args =>
      match args with
      | [] => ""
      | a :: _ => FindIdentityField a
  | _ => ""

/-- `expr.FindIdentityName`: first-branch-only descent building an alias
from the outermost context and the first identity.  Note the `depth > 10`
recursion cap appears only in the `*FuncNode` case of the source's type
switch; the `*BinaryNode` case recurses unconditionally with
`strings.ToLower(arg.String())` as the new context. -/
def FindIdentityName (depth : Int) (node : Node) (pre : String) : String :=
  match node with
  | .identity n => if pre = "" then n.text else pre ++ "_" ++ n.text
  | .binary _ a _ _ => FindIdentityName (depth + 1) a (strToLower a.string)
  | .func _ f args =>
      if depth > 10 then ""
      else
        match args with
        | [] => ""
        | a :: _ => FindIdentityName (depth + 1) a (strToLower f.name)
  | _ => ""

/-- `value.ValueType` (package value, external to src): the closed set of
runtime value types named by the verified code. -/
inductive ValueType where
  | unknownType
  | stringType
  | numberType
  | intType
  | boolType
  deriving DecidableEq, Repr

/-- `expr.ValueTypeFromNode`.  The argument is an interface value, so the
Go `case nil` (a nil `Node`) is modelled with `Option Node`.  The
`case *FuncNode:` arm is empty: Go switch cases do not fall through, so a
function node drops out of the switch and returns `UnknownType`.  The
binary default case and the outer default case log a warning and likewise
return `UnknownType`. -/
def ValueTypeFromNode : Option Node → ValueType
  | some (.func _ _ _) => .unknownType
  | some (.str _) => .stringType
  | some (.identity _) => .stringType
  | some (.number _) => .numberType
  | some (.binary _ _ _ op) =>
      match op.t with
      | .logicAnd => .boolType
      | .logicOr => .boolType
      | .multiply => .numberType
      | .minus => .numberType
      | .add => .numberType
      | .divide => .numberType
      | .modulus => .intType
      | _ => .unknownType
  | none => .unknownType
  | some _ => .unknownType

/-! ## The datasource registry (package datasource) -/

/-- `datasource.DataSource`: a registered backend.  `Tables()` is the
`tables` field; `Open(connInfo)` is the `openRes` field (the session
handle a successful open returns is modelled as a `Nat` tag); the dynamic
type's satisfaction of the optional `Scanner` / `Seeker` contracts — which
Go detects by interface assertion — is the `scanner` / `seeker` field.
`id` distinguishes backends in the model.  `Close()` is never called by
the verified code and is omitted. -/
structure DataSource where
  id : Nat
  tables : List String
  openRes : String → Except String Nat
  scanner : Bool
  seeker : Bool

/-- `datasource.Features`: the capability matrix.  The Go field `Where` is
a Lean keyword and is rendered `whereFeat`. -/
structure Features where
  scan : Bool
  seek : Bool
  whereFeat : Bool
  groupBy : Bool
  sort : Bool
  aggregations : Bool

/-- `datasource.DataSourceFeatures`: a backend paired with its capability
record. -/
structure DataSourceFeatures where
  features : Features
  source : DataSource

/-- `datasource.NewFeaturedSource`: probe `Scanner` and `Seeker` once at
wrap time; the remaining four features stay at their zero value. -/
def NewFeaturedSource (src : DataSource) : DataSourceFeatures :=
  ⟨⟨src.scanner, src.seeker, false, false, false, false⟩, src⟩

/-- `datasource.DataSources`: the registry.  The two Go maps are modelled
as insertion-ordered association lists; the `sources` list order also
models Go's (unspecified) map iteration order during the lazy table-index
build. -/
structure DataSources where
  sources : List (String × DataSource)
  tableSources : List (String × DataSource)

/-- Go map lookup on the association-list model (keys are unique by
construction, so first match is the map entry). -/
def lookupSrc : List (String × DataSource) → String → Option DataSource
  | [], _ => none
  | (k, v) :: rest, name => if k = name then some v else lookupSrc rest name

/-- The collision warning text of the lazy table-index build. -/
def collisionWarning (tbl : String) : String :=
  "table names must be unique across sources " ++ tbl

/-- The lazy table-index build inside `DataSources.Get` (`for _, src :=
range m.sources { for _, tbl := range src.Tables() { ... } }`): a table
already present is warned about and left bound to its existing source;
otherwise it is bound to the current source.  Returns the built index and
the warnings emitted. -/
def buildTableSources (srcs : List (String × DataSource)) :
    List (String × DataSource) × List String :=
  srcs.foldl
    (fun acc p =>
      p.2.tables.foldl
        (fun acc2 tbl =>
          match lookupSrc acc2.1 tbl with
          | some _ => (acc2.1, acc2.2 ++ [collisionWarning tbl])
          | none => (acc2.1 ++ [(tbl, p.2)], acc2.2))
        acc)
    ([], [])

/-- Result of `DataSources.Get`: the resolved (capability-wrapped) source
or `nil`, the registry with its possibly newly-built table index, and the
warnings logged along the way. -/
structure GetResult where
  result : Option DataSourceFeatures
  registry : DataSources
  warnings : List String

/-- `DataSources.Get`: case-folded lookup among registered source names;
single-registered-source convenience fallback; then the lazily-built (and
cached) table-name index, looked up with the name verbatim; a miss
everywhere returns `nil` with a warning. -/
def DataSources.get (m : DataSources) (sourceType : String) : GetResult :=
  match lookupSrc m.sources (strToLower sourceType) with
  | some source => ⟨some (NewFeaturedSource source), m, []⟩
  | none =>
    match m.sources with
    | [(_, src)] => ⟨some (NewFeaturedSource src), m, ["only one source?"]⟩
    | _ =>
      let built :=
        if m.tableSources.isEmpty then buildTableSources m.sources
        else (m.tableSources, [])
      let m' : DataSources := ⟨m.sources, built.1⟩
      match lookupSrc built.1 sourceType with
      | some src => ⟨some (NewFeaturedSource src), m', built.2⟩
      | none =>
          ⟨none, m', built.2 ++ ["could not find table: " ++ sourceType]⟩

/-- `datasource.Register`: store the backend under the lowercased name.
Go panics on a duplicate name (and on a nil backend, which the model's
types exclude); the panic is modelled as `Except.error`. -/
def Register (name : String) (source : DataSource) (m : DataSources) :
    Except String DataSources :=
  let lname := strToLower name
  match lookupSrc m.sources lname with
  | some _ =>
      .error ("qlbridge/datasource: Register called twice for datasource " ++ lname)
  | none => .ok ⟨m.sources ++ [(lname, source)], m.tableSources⟩

/-- The `fmt.Errorf("datasource: unknown source %q (forgotten import?)", ...)`
message (`%q` modelled as plain double quotes). -/
def unknownSourceMsg (sourceName : String) : String :=
  "datasource: unknown source \"" ++ sourceName ++ "\" (forgotten import?)"

/-- `datasource.OpenConn`: exact-name (case-sensitive) lookup — note the
absence of `strings.ToLower` — then the backend's own `Open`, whose error
is propagated. -/
def OpenConn (m : DataSources) (sourceName sourceConfig : String) :
    Except String Nat :=
  match lookupSrc m.sources sourceName with
  | none => .error (unknownSourceMsg sourceName)
  | some sourcei => sourcei.openRes sourceConfig

/-! ## The row stream primitive (`datasource.SourceIterChannel`)

Concurrency is modelled by making the producer goroutine's whole activity
a function of (a) the iterator's behaviour — the finite list of rows it
yields before its terminal event, and whether that terminal `Next()` call
reports end-of-data (`nil`) or panics — and (b) the schedule of the
`select`: `sig i = true` means the cancellation channel is the ready/chosen
arm at the i-th iteration.  The outcome records the channel capacity, the
rows actually sent, and whether the deferred `close(out)` ran. -/

/-- The terminal behaviour of the iterator's final `Next()` call. -/
inductive IterTerminal where
  | endOfData
  | panics
  deriving DecidableEq, Repr

/-- A pull-style iterator: the rows it yields, then its terminal event. -/
structure IterModel (α : Type) where
  items : List α
  terminal : IterTerminal

/-- Producer outcome: channel capacity, rows emitted, channel closed. -/
structure ChanOutcome (α : Type) where
  capacity : Nat
  emitted : List α
  closed : Bool

/-- The producer loop body: at iteration `i` the row has been fetched from
the iterator; the `select` then either observes the cancellation signal
(`sig i`) and returns — dropping the fetched row and everything after it —
or sends the row. -/
def produceFrom (sig : Nat → Bool) : List α → Nat → List α
  | [], _ => []
  | it :: rest, i => if sig i then [] else it :: produceFrom sig rest (i + 1)

/-- `datasource.SourceIterChannel`: `make(chan Message, 100)`, the producer
goroutine, and the deferred `recover`-and-`close`.  Whichever way the
goroutine exits — end-of-data, observed cancellation, or a recovered panic
from the terminal `Next()` — the deferred `close(out)` runs, so `closed` is
unconditionally true; the iterator's terminal behaviour affects only the
log line, never the emitted rows or the closure. -/
def SourceIterChannel (iter : IterModel α) (sig : Nat → Bool) : ChanOutcome α :=
  ⟨100, produceFrom sig iter.items 0, true⟩

/-! ## The job builder (package exec)

The SQL statement types (`expr.SqlSelect`, `expr.SqlSource`,
`expr.SqlWhere`) are repository code not included under src; they are
modelled from the spec and from the fields `VisitSelect` reads:
`stmt.From` (a slice of table references), `from.Name`, `from.Source` (a
sub-select, nil unless the reference is a subquery), `stmt.Where`,
`stmt.Where.Source` (a sub-select WHERE), `stmt.Where.Expr` (an expression
WHERE). -/

mutual

/-- Modelled from the spec: a parsed SELECT statement — its FROM-clause
table references and its optional WHERE clause (the selected columns are
carried opaquely by the statement value itself, which is all
`NewProjection(stmt)` consumes). -/
inductive SqlSelect where
  | mk : List SqlSource → Option SqlWhere → SqlSelect

/-- Modelled from the spec: one FROM-clause table reference — its name and
its optional subquery source. -/
inductive SqlSource where
  | mk : String → Option SqlSelect → SqlSource

/-- Modelled from the spec: a WHERE clause — either a sub-select source or
an expression node. -/
inductive SqlWhere where
  | mk : Option SqlSelect → Option Node → SqlWhere

end

def SqlSelect.fromList : SqlSelect → List SqlSource
  | .mk fs _ => fs

def SqlSelect.whereOpt : SqlSelect → Option SqlWhere
  | .mk _ w => w

def SqlSource.name : SqlSource → String
  | .mk n _ => n

def SqlSource.source : SqlSource → Option SqlSelect
  | .mk _ s => s

def SqlWhere.source : SqlWhere → Option SqlSelect
  | .mk s _ => s

def SqlWhere.expr : SqlWhere → Option Node
  | .mk _ e => e

/-- A resolved source connection, as `RuntimeConfig.Conn` returns it: the
only property `VisitSelect` observes is whether its dynamic type satisfies
the `datasource.Scanner` interface assertion. -/
structure ConnModel where
  scanner : Bool

/-- The task constructors `NewSource`, `NewSourceJoin`, `NewWhere` and
`NewProjection` live in exec files not included under src; each task is
modelled as the data its constructor is handed. -/
inductive Task where
  | source (from_ : SqlSource) (conn : ConnModel)
  | sourceJoin (l r : SqlSource)
  | whereFilter (e : Node)
  | projection (stmt : SqlSelect)

/-- The `JobBuilder` as `VisitSelect` uses it.  `conn` is modelled from the
spec: `RuntimeConfig.Conn(name)` resolves a table/source name via the
registry to a connection (`none` = nil interface, which fails the `Scanner`
assertion).  `rewrite` and `newSourceJoin` model `SqlSource.Rewrite` and
`exec.NewSourceJoin` — both repository code not under src — as opaque
functions; no verified claim depends on their behaviour, only on how
`VisitSelect` wires them. -/
structure JobBuilderM where
  conn : String → Option ConnModel
  rewrite : Bool → SqlSelect → SqlSource → SqlSource
  newSourceJoin : SqlSource → SqlSource → Except String Task

/-- The `"Must Implement Scanner"` planning error. -/
def scanErrMsg : String := "Must Implement Scanner"

/-- The `"3 or more Table/Join not currently implemented"` planning error
(returned for every FROM shape other than exactly one or exactly two
tables — including zero tables). -/
def notImplMsg : String := "3 or more Table/Join not currently implemented"

/-- `JobBuilder.VisitSelect`.  One table: if the reference has a name and
no subquery source, resolve the connection and require `Scanner`, wrapping
it as a Source task (a nameless or subquery reference silently adds no
task).  Two tables: rewrite both sides and build a single join task.  Any
other FROM length: the not-implemented error.  Then the WHERE switch —
`Source != nil` first (dropped with a warning), `Expr != nil` second
(appended as a filter task), default dropped with a warning — and finally
the projection task, always appended last. -/
def visitSelect (m : JobBuilderM) (stmt : SqlSelect) :
    Except String (List Task) :=
  let step1 : Except String (List Task) :=
    match stmt.fromList with
    | [f] =>
        if f.name = "" then .ok []
        else
          match f.source with
          | some _ => .ok []
          | none =>
              match m.conn f.name with
              | some c => if c.scanner then .ok [Task.source f c] else .error scanErrMsg
              | none => .error scanErrMsg
    | [f0, f1] =>
        let f0' := m.rewrite true stmt f0
        let f1' := m.rewrite false stmt f1
        match m.newSourceJoin f0' f1' with
        | .error e => .error e
        | .ok t => .ok [t]
    | _ => .error notImplMsg
  match step1 with
  | .error e => .error e
  | .ok tasks =>
      let tasks2 :=
        match stmt.whereOpt with
        | some w =>
            match w.source, w.expr with
            | some _, _ => tasks
            | none, some e => tasks ++ [Task.whereFilter e]
            | none, none => tasks
        | none => tasks
      .ok (tasks2 ++ [Task.projection stmt])

/-! ## Concrete inputs used by counterexamples and witnesses -/

/-- A bare identity node `a` (no quote, caches empty). -/
def idA : IdentityNode := ⟨0, "a", "", ""⟩

/-- A chain of `n` nested binary (`=`) nodes whose first branch always
descends toward a single identity `a` at depth `n`. -/
def deepBinTree : Nat → Node
  | 0 => .identity idA
  | n + 1 => .binary false (deepBinTree n) (.identity idA) ⟨.equal, "="⟩

/-- Backend A of the registry-collision scenario: exposes table `x`. -/
def dsA : DataSource := ⟨0, ["x"], fun _ => .ok 10, true, false⟩

/-- Backend B of the registry-collision scenario: also exposes table `x`,
registered after A. -/
def dsB : DataSource := ⟨1, ["x"], fun _ => .ok 11, true, false⟩

/-- A registry holding A then B (registration order; the list order also
models the map enumeration order of the lazy table-index build). -/
def regAB : DataSources := ⟨[("a", dsA), ("b", dsB)], []⟩

/-! ## C4: NewNumber dual storage -/

/-- `float64(n)` is exact for magnitudes up to `2^53`. -/
theorem floatOfInt_exact (v : Int) (h : v.natAbs ≤ 2 ^ 53) :
    floatOfInt v = (v : ℚ) := by
  by_cases hlt : v.natAbs < 2 ^ 53
  · unfold floatOfInt
    rw [if_pos hlt]
  · have heq : v.natAbs = 2 ^ 53 := by omega
    rcases Int.natAbs_eq v with hv | hv
    · rw [hv, heq]; decide
    · rw [hv, heq]; decide

/-- Counterexample to C4.  First conjunct: the integer-parseable text
`"9007199254740993"` (`2^53 + 1`) yields a node whose `Float64` is
`float64(Int64) = 9007199254740992` — Go's conversion rounds to nearest
even above `2^53` — which is NOT the equivalent float of `Int64`, refuting
"the node carries both the integer value and the equivalent float".
Second conjunct: `"1e19"` parses only as a float whose value `10^19` has
no fractional part, yet the node keeps `IsInt = false`: the round-trip
test `float64(int64(f)) == f` fails for every float beyond int64 range, so
no back-promotion happens, refuting "the node is back-promoted to also
carry the equivalent integer". -/
theorem NewNumber_rounding_cex :
    (NewNumber (some 9007199254740993) (some 9007199254740992) "9007199254740993" =
        .ok ⟨true, true, 9007199254740993, 9007199254740992, "9007199254740993"⟩ ∧
      (9007199254740992 : ℚ) ≠ ((9007199254740993 : Int) : ℚ)) ∧
    (NewNumber none (some 10000000000000000000) "1e19" =
        .ok ⟨false, true, 0, 10000000000000000000, "1e19"⟩ ∧
      (ratTrunc (10000000000000000000 : ℚ) : ℚ) = 10000000000000000000) := by
  exact ⟨⟨rfl, by decide⟩, ⟨rfl, by decide⟩⟩

/-- C4 (amended): for every input, `NewNumber` either fails or yields a
node with at least one of `IsInt`/`IsFloat` set; an integer parse yields
both flags with `Float64 = float64(Int64)` under Go's round-to-nearest
conversion — equal to the equivalent float exactly when `|Int64| ≤ 2^53`,
which covers `NewNumber("5")`; a float-only parse is back-promoted to
carry the integer precisely when the code's round-trip test
`float64(int64(f)) == f` passes — in particular for every integral float
of magnitude at most `2^53`, and never beyond int64 range; when neither
parse succeeds it fails with the "illegal number syntax" error.  The
strconv parse results on the text enter as the `ip`/`fp` parameters. -/
theorem NewNumber_dual_storage_amended (ip : Option Int) (fp : Option ℚ) (t : String) :
    (∀ n, NewNumber ip fp t = .ok n → n.isInt = true ∨ n.isFloat = true) ∧
    (∀ v, ip = some v → NewNumber ip fp t = .ok ⟨true, true, v, floatOfInt v, t⟩) ∧
    (∀ f, ip = none → fp = some f → floatOfInt (int64OfFloat f) = f →
        NewNumber ip fp t = .ok ⟨true, true, int64OfFloat f, f, t⟩) ∧
    (∀ f, ip = none → fp = some f → floatOfInt (int64OfFloat f) ≠ f →
        NewNumber ip fp t = .ok ⟨false, true, 0, f, t⟩) ∧
    (∀ f, (ratTrunc f : ℚ) = f → (ratTrunc f).natAbs ≤ 2 ^ 53 →
        floatOfInt (int64OfFloat f) = f) ∧
    (ip = none → fp = none → NewNumber ip fp t = .error (illegalNumberMsg t)) := by
  refine ⟨?_, ?_, ?_, ?_, ?_, ?_⟩
  · intro n h
    cases ip with
    | some v => simp [NewNumber] at h; simp [← h]
    | none =>
        cases fp with
        | none => simp [NewNumber] at h
        | some f =>
            by_cases hf : floatOfInt (int64OfFloat f) = f <;>
              simp [NewNumber, hf] at h <;> simp [← h]
  · intro v hv
    subst hv
    simp [NewNumber]
  · intro f hi hf htr
    subst hi; subst hf
    simp [NewNumber, htr]
  · intro f hi hf htr
    subst hi; subst hf
    simp [NewNumber, htr]
  · intro f hint hsmall
    have hrange : minInt64 ≤ ratTrunc f ∧ ratTrunc f ≤ maxInt64 := by
      have := Int.natAbs_eq (ratTrunc f)
      constructor <;> [skip; skip] <;>
        simp only [minInt64, maxInt64] <;> omega
    have h64 : int64OfFloat f = ratTrunc f := by
      simp [int64OfFloat, hrange.1, hrange.2]
    rw [h64, floatOfInt_exact _ hsmall, hint]
  · intro hi hf
    subst hi; subst hf
    simp [NewNumber]

/-- C4 witness: `NewNumber("5")` (strconv parses `"5"` as integer 5 and as
float 5.0) yields `IsInt`, `IsFloat`, `Int64=5`, `Float64=5.0` — the
conversion is exact at 5 — and an unparseable text fails. -/
theorem NewNumber_dual_storage_amended_witness :
    NewNumber (some 5) (some 5) "5" = .ok ⟨true, true, 5, 5, "5"⟩ ∧
    NewNumber none none "x" = .error (illegalNumberMsg "x") := by
  constructor
  · have h := (NewNumber_dual_storage_amended (some 5) (some 5) "5").2.1 5 rfl
    rwa [show floatOfInt 5 = (5 : ℚ) from
      floatOfInt_exact 5 (by decide)] at h
  · exact (NewNumber_dual_storage_amended none none "x").2.2.2.2.2 rfl rfl

/-! ## C6: SourceIterChannel closure -/

/-- The producer loop emits a take-shaped prefix: everything before the
first iteration at which the cancellation signal is observed. -/
theorem produceFrom_take (sig : Nat → Bool) :
    ∀ (items : List α) (i : Nat), ∃ k,
      produceFrom sig items i = items.take k ∧
      (k = items.length ∨ (k < items.length ∧ sig (i + k) = true)) ∧
      (∀ j < k, sig (i + j) = false) := by
  intro items
  induction items with
  | nil => intro i; exact ⟨0, by simp [produceFrom], Or.inl rfl, by simp⟩
  | cons a rest ih =>
      intro i
      by_cases h : sig i
      · exact ⟨0, by simp [produceFrom, h], Or.inr ⟨by simp, by simpa using h⟩, by simp⟩
      · obtain ⟨k, h1, h2, h3⟩ := ih (i + 1)
        refine ⟨k + 1, ?_, ?_, ?_⟩
        · simp [produceFrom, h, h1]
        · rcases h2 with h2 | ⟨h2a, h2b⟩
          · exact Or.inl (by simp [h2])
          · refine Or.inr ⟨by simpa using h2a, ?_⟩
            have : i + (k + 1) = i + 1 + k := by omega
            rw [this]; exact h2b
        · intro j hj
          cases j with
          | zero => simpa using h
          | succ j' =>
              have : i + (j' + 1) = i + 1 + j' := by omega
              rw [this]
              exact h3 j' (by omega)

/-- C6: the channel has fixed capacity 100, the producer's activity always
ends with the channel closed (end-of-data, observed cancellation, and the
recovered-panic terminal all run the deferred `close`), and the emitted
rows are exactly the iterator's rows up to but excluding the first
iteration at which the cancellation signal was observed — no row is
emitted at or after an observed signal. -/
theorem SourceIterChannel_closes (iter : IterModel α) (sig : Nat → Bool) :
    (SourceIterChannel iter sig).capacity = 100 ∧
    (SourceIterChannel iter sig).closed = true ∧
    ∃ k, (SourceIterChannel iter sig).emitted = iter.items.take k ∧
      (k = iter.items.length ∨ (k < iter.items.length ∧ sig k = true)) ∧
      (∀ j < k, sig j = false) := by
  refine ⟨rfl, rfl, ?_⟩
  obtain ⟨k, h1, h2, h3⟩ := produceFrom_take sig iter.items 0
  exact ⟨k, h1, by simpa using h2, by simpa using h3⟩

/-- C6 witness: a three-row iterator that panics at its terminal `Next()`,
with the cancellation signal observed at iteration 1: one row emitted, the
channel closed, capacity 100. -/
theorem SourceIterChannel_closes_witness :
    (SourceIterChannel ⟨["r0", "r1", "r2"], .panics⟩ (fun i => decide (i = 1))).capacity = 100 ∧
    (SourceIterChannel ⟨["r0", "r1", "r2"], .panics⟩ (fun i => decide (i = 1))).closed = true ∧
    (SourceIterChannel ⟨["r0", "r1", "r2"], .panics⟩ (fun i => decide (i = 1))).emitted = ["r0"] := by
  obtain ⟨h1, h2, -⟩ :=
    SourceIterChannel_closes (α := String) ⟨["r0", "r1", "r2"], .panics⟩ (fun i => decide (i = 1))
  exact ⟨h1, h2, rfl⟩

/-! ## C7: IdentityNode.LeftRight -/

/-- C7: on a fresh node with text `"t.c"`, `LeftRight` returns
`("t","c",true)`; on text `"c"`, `("c","",false)`; on text with more than
one `.` it returns the full text with empty right side and a false
has-right flag; and a second call on the (possibly cache-updated) node
returns the identical triple. -/
theorem LeftRight_spec (m : IdentityNode) :
    (m.left = "" → m.text = "t.c" → m.LeftRight.1 = ("t", "c", true)) ∧
    (m.left = "" → m.right = "" → m.text = "c" → m.LeftRight.1 = ("c", "", false)) ∧
    (m.left = "" → 3 ≤ (splitDot m.text).length → m.LeftRight.1 = (m.text, "", false)) ∧
    m.LeftRight.2.LeftRight.1 = m.LeftRight.1 := by
  refine ⟨?_, ?_, ?_, ?_⟩
  · intro hl ht
    obtain ⟨q, txt, l, r⟩ := m
    simp only at hl ht
    subst hl; subst ht
    rfl
  · intro hl hr ht
    obtain ⟨q, txt, l, r⟩ := m
    simp only at hl hr ht
    subst hl; subst hr; subst ht
    rfl
  · intro hl hlen
    obtain ⟨q, txt, l, r⟩ := m
    simp only at hl hlen ⊢
    subst hl
    rcases hsplit : splitDot txt with _ | ⟨a, _ | ⟨b, _ | _⟩⟩ <;>
      simp [hsplit, IdentityNode.LeftRight] <;> simp [hsplit] at hlen
  · obtain ⟨q, txt, l, r⟩ := m
    by_cases hl : l = ""
    · subst hl
      rcases hsplit : splitDot txt with _ | ⟨a, _ | ⟨b, _ | _⟩⟩
      · simp [IdentityNode.LeftRight, hsplit]
      · by_cases ht : txt = ""
        · subst ht
          simp [IdentityNode.LeftRight, show splitDot "" = [""] from rfl]
        · simp [IdentityNode.LeftRight, hsplit, ht]
      · by_cases ha : a = ""
        · subst ha
          simp [IdentityNode.LeftRight, hsplit]
        · simp [IdentityNode.LeftRight, hsplit, ha]
      · simp [IdentityNode.LeftRight, hsplit]
    · simp [IdentityNode.LeftRight, hl]

/-- C7 witness: the concrete calls of the claim, including a repeated call
on the node returned by the first call. -/
theorem LeftRight_spec_witness :
    (IdentityNode.LeftRight ⟨0, "t.c", "", ""⟩).1 = ("t", "c", true) ∧
    (IdentityNode.LeftRight ⟨0, "c", "", ""⟩).1 = ("c", "", false) ∧
    (IdentityNode.LeftRight ⟨0, "a.b.c", "", ""⟩).1 = ("a.b.c", "", false) ∧
    (IdentityNode.LeftRight (IdentityNode.LeftRight ⟨0, "t.c", "", ""⟩).2).1 = ("t", "c", true) := by
  refine ⟨?_, ?_, ?_, ?_⟩
  · exact (LeftRight_spec ⟨0, "t.c", "", ""⟩).1 rfl rfl
  · exact (LeftRight_spec ⟨0, "c", "", ""⟩).2.1 rfl rfl rfl
  · exact (LeftRight_spec ⟨0, "a.b.c", "", ""⟩).2.2.1 rfl (by decide)
  · have h := (LeftRight_spec ⟨0, "t.c", "", ""⟩).2.2.2
    have h1 := (LeftRight_spec ⟨0, "t.c", "", ""⟩).1 rfl rfl
    rw [h, h1]

/-! ## C8: ValueTypeFromNode -/

/-- C8: `ValueTypeFromNode` returns string type for string-literal and
identity nodes, numeric type for number nodes, boolean type for AND/OR
binary nodes regardless of operands, numeric type for arithmetic binary
nodes, integer type for modulus, and unknown type (without error) for a
nil node and for any other binary operator. -/
theorem ValueTypeFromNode_spec :
    (∀ t, ValueTypeFromNode (some (.str t)) = .stringType) ∧
    (∀ n, ValueTypeFromNode (some (.identity n)) = .stringType) ∧
    (∀ n, ValueTypeFromNode (some (.number n)) = .numberType) ∧
    (∀ p a b op, op.t = .logicAnd ∨ op.t = .logicOr →
        ValueTypeFromNode (some (.binary p a b op)) = .boolType) ∧
    (∀ p a b op, op.t = .multiply ∨ op.t = .minus ∨ op.t = .add ∨ op.t = .divide →
        ValueTypeFromNode (some (.binary p a b op)) = .numberType) ∧
    (∀ p a b op, op.t = .modulus →
        ValueTypeFromNode (some (.binary p a b op)) = .intType) ∧
    ValueTypeFromNode none = .unknownType ∧
    (∀ p a b op, op.t ≠ .logicAnd → op.t ≠ .logicOr → op.t ≠ .multiply →
        op.t ≠ .minus → op.t ≠ .add → op.t ≠ .divide → op.t ≠ .modulus →
        ValueTypeFromNode (some (.binary p a b op)) = .unknownType) := by
  refine ⟨fun t => rfl, fun n => rfl, fun n => rfl, ?_, ?_, ?_, rfl, ?_⟩
  · rintro p a b op (h | h) <;> simp [ValueTypeFromNode, h]
  · rintro p a b op (h | h | h | h) <;> simp [ValueTypeFromNode, h]
  · rintro p a b op h; simp [ValueTypeFromNode, h]
  · intro p a b op h1 h2 h3 h4 h5 h6 h7
    obtain ⟨ot, ov⟩ := op
    cases ot <;> simp_all [ValueTypeFromNode]

/-- C8 witness: concrete nodes for each case, including AND over non-bool
operands (two number literals) and an "other" binary operator (`=`). -/
theorem ValueTypeFromNode_spec_witness :
    ValueTypeFromNode (some (.str "s")) = .stringType ∧
    ValueTypeFromNode (some (.identity idA)) = .stringType ∧
    ValueTypeFromNode (some (.number ⟨true, true, 5, 5, "5"⟩)) = .numberType ∧
    ValueTypeFromNode (some (.binary false (.number ⟨true, true, 1, 1, "1"⟩)
      (.number ⟨true, true, 2, 2, "2"⟩) ⟨.logicAnd, "AND"⟩)) = .boolType ∧
    ValueTypeFromNode (some (.binary false (.str "l") (.str "r") ⟨.add, "+"⟩)) = .numberType ∧
    ValueTypeFromNode (some (.binary false (.str "l") (.str "r") ⟨.modulus, "%"⟩)) = .intType ∧
    ValueTypeFromNode none = .unknownType ∧
    ValueTypeFromNode (some (.binary false (.str "l") (.str "r") ⟨.equal, "="⟩)) = .unknownType := by
  refine ⟨(ValueTypeFromNode_spec).1 "s", (ValueTypeFromNode_spec).2.1 idA,
    (ValueTypeFromNode_spec).2.2.1 _, (ValueTypeFromNode_spec).2.2.2.1 _ _ _ _ (Or.inl rfl),
    (ValueTypeFromNode_spec).2.2.2.2.1 _ _ _ _ (Or.inr (Or.inr (Or.inl rfl))),
    (ValueTypeFromNode_spec).2.2.2.2.2.1 _ _ _ _ rfl, (ValueTypeFromNode_spec).2.2.2.2.2.2.1,
    (ValueTypeFromNode_spec).2.2.2.2.2.2.2 _ _ _ _ (by decide) (by decide) (by decide)
      (by decide) (by decide) (by decide) (by decide)⟩

/-! ## C1: VisitSelect single-table pipeline shape -/

/-- C1: for a SELECT with exactly one FROM table (named, not a subquery)
whose resolved connection implements `Scanner`, `VisitSelect` returns a
task list with a Source task first and a Projection task last, and a
Filter task in between exactly when the WHERE clause carries a non-nil
expression; a sub-query WHERE or an empty WHERE adds no task. -/
theorem visitSelect_single_table (m : JobBuilderM) (stmt : SqlSelect)
    (f : SqlSource) (c : ConnModel)
    (hf : stmt.fromList = [f]) (hn : f.name ≠ "") (hs : f.source = none)
    (hc : m.conn f.name = some c) (hsc : c.scanner = true) :
    (∀ w e, stmt.whereOpt = some w → w.source = none → w.expr = some e →
        visitSelect m stmt = .ok [.source f c, .whereFilter e, .projection stmt]) ∧
    (stmt.whereOpt = none →
        visitSelect m stmt = .ok [.source f c, .projection stmt]) ∧
    (∀ w sub, stmt.whereOpt = some w → w.source = some sub →
        visitSelect m stmt = .ok [.source f c, .projection stmt]) ∧
    (∀ w, stmt.whereOpt = some w → w.source = none → w.expr = none →
        visitSelect m stmt = .ok [.source f c, .projection stmt]) := by
  obtain ⟨fs, wo⟩ := stmt
  simp only [SqlSelect.fromList, SqlSelect.whereOpt] at hf ⊢
  subst hf
  refine ⟨?_, ?_, ?_, ?_⟩
  · rintro ⟨wsrc, wexp⟩ e rfl hws hwe
    simp only [SqlWhere.source, SqlWhere.expr] at hws hwe
    subst hws; subst hwe
    simp [visitSelect, SqlSelect.fromList, SqlSelect.whereOpt, SqlWhere.source,
      SqlWhere.expr, hn, hs, hc, hsc]
  · rintro rfl
    simp [visitSelect, SqlSelect.fromList, SqlSelect.whereOpt, SqlWhere.source,
      SqlWhere.expr, hn, hs, hc, hsc]
  · rintro ⟨wsrc, wexp⟩ sub rfl hws
    simp only [SqlWhere.source] at hws
    subst hws
    simp [visitSelect, SqlSelect.fromList, SqlSelect.whereOpt, SqlWhere.source,
      SqlWhere.expr, hn, hs, hc, hsc]
  · rintro ⟨wsrc, wexp⟩ rfl hws hwe
    simp only [SqlWhere.source, SqlWhere.expr] at hws hwe
    subst hws; subst hwe
    simp [visitSelect, SqlSelect.fromList, SqlSelect.whereOpt, SqlWhere.source,
      SqlWhere.expr, hn, hs, hc, hsc]

/-- C1 witness: a single-table statement over a scanner-capable backend,
with an expression WHERE, plans to exactly [Source, Filter, Projection]. -/
theorem visitSelect_single_table_witness :
    visitSelect ⟨fun _ => some ⟨true⟩, fun _ _ s => s, fun _ _ => .error "no join"⟩
      (.mk [.mk "users" none] (some (.mk none (some (.str "cond"))))) =
      .ok [.source (.mk "users" none) ⟨true⟩, .whereFilter (.str "cond"),
        .projection (.mk [.mk "users" none] (some (.mk none (some (.str "cond")))))] := by
  exact (visitSelect_single_table
    ⟨fun _ => some ⟨true⟩, fun _ _ s => s, fun _ _ => .error "no join"⟩
    (.mk [.mk "users" none] (some (.mk none (some (.str "cond")))))
    (.mk "users" none) ⟨true⟩ rfl (by decide) rfl rfl rfl).1
    (.mk none (some (.str "cond"))) (.str "cond") rfl rfl rfl

/-! ## C2: VisitSelect failure cases -/

/-- C2: a SELECT with zero or three-or-more FROM tables fails with the
"not currently implemented" error, and a single-table SELECT whose
resolved connection does not satisfy `Scanner` (including a nil
connection) fails with the "Must Implement Scanner" error; in both cases
no task list is returned. -/
theorem visitSelect_errors (m : JobBuilderM) (stmt : SqlSelect) :
    (stmt.fromList.length = 0 ∨ 3 ≤ stmt.fromList.length →
        visitSelect m stmt = .error notImplMsg) ∧
    (∀ f, stmt.fromList = [f] → f.name ≠ "" → f.source = none →
        (∀ c, m.conn f.name = some c → c.scanner = false) →
        visitSelect m stmt = .error scanErrMsg) := by
  obtain ⟨fs, wo⟩ := stmt
  simp only [SqlSelect.fromList]
  constructor
  · intro hlen
    match fs, hlen with
    | [], _ => simp [visitSelect, SqlSelect.fromList]
    | f0 :: f1 :: f2 :: rest, _ => simp [visitSelect, SqlSelect.fromList]
    | [f0], h => simp at h
    | [f0, f1], h => simp at h
  · rintro f rfl hn hs hns
    rcases hc : m.conn f.name with _ | c
    · simp [visitSelect, SqlSelect.fromList, hn, hs, hc]
    · have := hns c hc
      simp [visitSelect, SqlSelect.fromList, hn, hs, hc, this]

/-- C2 witness: a three-table statement fails with the not-implemented
error; a single-table statement over a backend without `Scanner` fails
with the must-implement-scan error. -/
theorem visitSelect_errors_witness :
    visitSelect ⟨fun _ => some ⟨false⟩, fun _ _ s => s, fun _ _ => .error "no join"⟩
      (.mk [.mk "a" none, .mk "b" none, .mk "c" none] none) = .error notImplMsg ∧
    visitSelect ⟨fun _ => some ⟨false⟩, fun _ _ s => s, fun _ _ => .error "no join"⟩
      (.mk [.mk "users" none] none) = .error scanErrMsg := by
  constructor
  · exact (visitSelect_errors
      ⟨fun _ => some ⟨false⟩, fun _ _ s => s, fun _ _ => .error "no join"⟩
      (.mk [.mk "a" none, .mk "b" none, .mk "c" none] none)).1 (Or.inr (by decide))
  · exact (visitSelect_errors
      ⟨fun _ => some ⟨false⟩, fun _ _ s => s, fun _ _ => .error "no join"⟩
      (.mk [.mk "users" none] none)).2 (.mk "users" none) rfl (by decide) rfl
      (fun c hc => by simp at hc; simp [← hc])

/-! ## C5: FuncNode.Check -/

/-- The kind-mismatch arm of `FuncNode.Check` is dead code: in the Go type
switch, `case Node:` matches every element of `c.Args []Node` before
`case value.Value:` can be tried.  Here a function whose single declared
parameter kind is String is applied to a number literal (whose inferred
kind, per `NumberNode.Type()`, is Float64) — the kinds disagree, yet
`Check` returns nil. -/
theorem FuncNode_check_kind_cex :
    Node.check (.func "tolower" ⟨"tolower", [Kind.stringK], false, Kind.stringK⟩
      [.number ⟨true, true, 5, 5, "5"⟩]) = none ∧
    Node.typeKind (.number ⟨true, true, 5, 5, "5"⟩) = Kind.float64K ∧
    Kind.float64K ≠ Kind.stringK := by
  exact ⟨rfl, rfl, by decide⟩

/-- C5 (amended): `Check` on a call node errors when the supplied argument
count is below the declared count for a non-variadic function, or exceeds
it for a non-variadic function; otherwise it recursively checks each
argument in order, returning the first failing child's error and nil only
when every child passes.  The declared-parameter-kind comparison of the
source is unreachable (see the counterexample) and imposes no condition. -/
theorem FuncNode_check_amended (nm : String) (f : Func) (args : List Node) :
    (args.length < f.args.length → f.variadicArgs = false →
        (Node.check (.func nm f args)).isSome = true) ∧
    (f.args.length < args.length → f.variadicArgs = false →
        (Node.check (.func nm f args)).isSome = true) ∧
    (¬(args.length < f.args.length ∧ f.variadicArgs = false) →
     ¬(f.args.length < args.length ∧ f.variadicArgs = false) →
        Node.check (.func nm f args) = checkArgs args) ∧
    (∀ l a r e, args = l ++ a :: r → (∀ b ∈ l, b.check = none) →
        a.check = some e → checkArgs args = some e) ∧
    (checkArgs args = none ↔ ∀ b ∈ args, b.check = none) := by
  refine ⟨?_, ?_, ?_, ?_, ?_⟩
  · intro h1 h2
    simp [Node.check, h1, h2]
  · intro h1 h2
    have hnl : ¬(args.length < f.args.length) := by omega
    simp [Node.check, h1, h2, hnl]
  · intro hb ha
    by_cases hv : f.variadicArgs
    · by_cases hlen : f.args.length ≤ args.length
      · simp [Node.check, hv, hlen, Nat.not_lt.mpr hlen]
      · have h1 : args.length < f.args.length := by omega
        have h2 : ¬(f.args.length < args.length) := by omega
        simp [Node.check, hv, h1, h2, hlen]
    · have hveq : f.variadicArgs = false := by simpa using hv
      have h1 : ¬(args.length < f.args.length) := fun h => hb ⟨h, hveq⟩
      have h2 : ¬(f.args.length < args.length) := fun h => ha ⟨h, hveq⟩
      simp [Node.check, hveq, h1, h2]
  · intro l a r e hsplit hok hfail
    subst hsplit
    induction l with
    | nil => simp [checkArgs, hfail]
    | cons b rest ih =>
        have hb : b.check = none := hok b (by simp)
        simp only [List.cons_append, checkArgs, hb]
        exact ih fun x hx => hok x (by simp [hx])
  · induction args with
    | nil => simp [checkArgs]
    | cons a rest ih =>
        constructor
        · intro h b hb
          rcases hc : a.check with _ | e
          · simp only [checkArgs, hc] at h
            rcases List.mem_cons.mp hb with hb | hb
            · subst hb; exact hc
            · exact ih.1 h b hb
          · simp [checkArgs, hc] at h
        · intro h
          have ha : a.check = none := h a (by simp)
          simp only [checkArgs, ha]
          exact ih.2 fun b hb => h b (by simp [hb])

/-- C5 witness: a non-variadic one-parameter function errors on zero and on
two arguments; with one failing argument (a nested under-applied call) the
child's error is returned; with one passing argument the check is nil. -/
theorem FuncNode_check_amended_witness :
    (Node.check (.func "f" ⟨"f", [Kind.stringK], false, Kind.stringK⟩ [])).isSome = true ∧
    (Node.check (.func "f" ⟨"f", [Kind.stringK], false, Kind.stringK⟩
      [.str "x", .str "y"])).isSome = true ∧
    Node.check (.func "f" ⟨"f", [Kind.stringK], false, Kind.stringK⟩ [.str "x"]) =
      checkArgs [.str "x"] ∧
    checkArgs [.str "x"] = none := by
  refine ⟨?_, ?_, ?_, ?_⟩
  · exact (FuncNode_check_amended "f" ⟨"f", [Kind.stringK], false, Kind.stringK⟩ []).1
      (by decide) rfl
  · exact (FuncNode_check_amended "f" ⟨"f", [Kind.stringK], false, Kind.stringK⟩
      [.str "x", .str "y"]).2.1 (by decide) rfl
  · exact (FuncNode_check_amended "f" ⟨"f", [Kind.stringK], false, Kind.stringK⟩
      [.str "x"]).2.2.1 (by simp) (by simp)
  · exact (FuncNode_check_amended "f" ⟨"f", [Kind.stringK], false, Kind.stringK⟩
      [.str "x"]).2.2.2.2.mpr (by intro b hb; simp at hb; simp [hb, Node.check])

/-! ## C9: FindIdentityName recursion cap -/

/-- An identity sitting under any positive number of nested binary nodes is
found regardless of depth: binary-node recursion carries no depth check. -/
theorem deepBinTree_found : ∀ (n : Nat) (d : Int) (p : String),
    FindIdentityName d (deepBinTree (n + 1)) p = "a_a" := by
  intro n
  induction n with
  | zero => intro d p; rfl
  | succ k ih =>
      intro d p
      show FindIdentityName (d + 1) (deepBinTree (k + 1))
        (strToLower (Node.string (deepBinTree (k + 1)))) = "a_a"
      exact ih (d + 1) _

/-- Counterexample to C9: the first identity of this tree lies at depth 12,
beyond the claimed cap of 10, yet `FindIdentityName` does not return the
empty string — it finds the identity and builds the alias `a_a`, because
the `depth > 10` check exists only in the function-node case, not on the
binary-node recursion path. -/
theorem FindIdentityName_depth_cex :
    FindIdentityName 0 (deepBinTree 12) "" = "a_a" ∧ "a_a" ≠ "" := by
  exact ⟨deepBinTree_found 11 0 "", by decide⟩

/-- C9 (amended): the fixed depth-10 recursion cap applies only when a
function-call node is visited (a function node reached at depth > 10
yields the empty alias); recursion through binary nodes is uncapped, so an
identity nested under arbitrarily many binary nodes is still found. -/
theorem FindIdentityName_cap_amended (d : Int) (nm : String) (f : Func)
    (args : List Node) (p : String) (hd : 10 < d) :
    FindIdentityName d (.func nm f args) p = "" ∧
    ∀ (n : Nat) (d' : Int) (p' : String),
      FindIdentityName d' (deepBinTree (n + 1)) p' = "a_a" := by
  constructor
  · unfold FindIdentityName
    simp [hd]
  · exact deepBinTree_found

/-- C9 witness: a function node visited at depth 11 yields the empty
alias; an identity under 12 nested binary nodes is still found. -/
theorem FindIdentityName_cap_amended_witness :
    FindIdentityName 11 (.func "min" ⟨"min", [Kind.stringK], false, Kind.stringK⟩
      [.identity idA]) "" = "" ∧
    FindIdentityName 0 (deepBinTree 12) "" = "a_a" := by
  obtain ⟨h1, h2⟩ := FindIdentityName_cap_amended 11 "min"
    ⟨"min", [Kind.stringK], false, Kind.stringK⟩ [.identity idA] "" (by decide)
  exact ⟨h1, h2 11 0 ""⟩

/-! ## C3: registry table-name collision -/

/-- Counterexample to C3: two backends A (id 0) and B (id 1), registered in
that order, both exposing table `x`; `Get "x"` resolves to A — the first
backend the table-index build enumerates — not to the last-registered B.
The build's collision branch warns and leaves the existing entry in place,
so the first writer wins, not the last. -/
theorem DataSources_get_collision_cex :
    (regAB.get "x").result = some (NewFeaturedSource dsA) ∧
    (regAB.get "x").result ≠ some (NewFeaturedSource dsB) := by
  constructor
  · rfl
  · intro h
    rw [show (regAB.get "x").result = some (NewFeaturedSource dsA) from rfl] at h
    have h2 := congrArg (fun o => Option.map (fun dsf => dsf.source.id) o) h
    simp [NewFeaturedSource, dsA, dsB] at h2

/-- C3 (amended): with two registered backends each exposing the same
table `x`, and `x` matching no registered source name, resolving `x`
succeeds, records the collision warning, and returns exactly one of the
two — the backend enumerated first during the lazy table-index build
(first writer wins: the collision leaves the existing table entry in
place; which backend is enumerated first is map-iteration order in Go,
modelled here by registration order) — wrapped in a fresh capability
record. -/
theorem DataSources_get_collision_amended (na nb x : String) (A B : DataSource)
    (hA : A.tables = [x]) (hB : B.tables = [x])
    (hna : na ≠ strToLower x) (hnb : nb ≠ strToLower x) :
    ((DataSources.mk [(na, A), (nb, B)] []).get x).result
      = some (NewFeaturedSource A) ∧
    collisionWarning x ∈ ((DataSources.mk [(na, A), (nb, B)] []).get x).warnings := by
  have hlook : lookupSrc [(na, A), (nb, B)] (strToLower x) = none := by
    simp [lookupSrc, hna, hnb]
  have hbuild : buildTableSources [(na, A), (nb, B)] = ([(x, A)], [collisionWarning x]) := by
    simp [buildTableSources, hA, hB, lookupSrc]
  simp [DataSources.get, hlook, hbuild, lookupSrc, hna, hnb]

/-- C3 witness: the concrete A/B registry of the counterexample satisfies
the amended claim — resolution returns A (first writer) with the collision
warning recorded. -/
theorem DataSources_get_collision_amended_witness :
    ((DataSources.mk [("a", dsA), ("b", dsB)] []).get "x").result
      = some (NewFeaturedSource dsA) ∧
    collisionWarning "x" ∈ ((DataSources.mk [("a", dsA), ("b", dsB)] []).get "x").warnings := by
  exact DataSources_get_collision_amended "a" "b" "x" dsA dsB rfl rfl
    (by decide) (by decide)

/-! ## C10: Register lowercases, OpenConn does not -/

/-- `Char.ofNat` on a valid scalar value round-trips through `toNat`. -/
theorem toNat_ofNat_valid (n : Nat) (h : n.isValidChar) :
    (Char.ofNat n).toNat = n := by
  rw [Char.ofNat, dif_pos h]
  rfl

/-- Lowercasing an ASCII uppercase character changes it. -/
theorem charToLower_ne (c : Char) (h1 : 65 ≤ c.toNat) (h2 : c.toNat ≤ 90) :
    charToLower c ≠ c := by
  intro h
  have hv : (c.toNat + 32).isValidChar := Or.inl (by omega)
  have : (charToLower c).toNat = c.toNat + 32 := by
    unfold charToLower
    rw [if_pos ⟨h1, h2⟩]
    exact toNat_ofNat_valid _ hv
  rw [h] at this
  omega

/-- A list with a character moved by `f` is changed by `map f`. -/
theorem map_ne_of_mem_ne {f : Char → Char} :
    ∀ (l : List Char), (∃ c ∈ l, f c ≠ c) → l.map f ≠ l := by
  intro l
  induction l with
  | nil => rintro ⟨c, hc, -⟩; cases hc
  | cons a rest ih =>
      rintro ⟨c, hc, hne⟩ hmap
      simp only [List.map_cons, List.cons.injEq] at hmap
      rcases List.mem_cons.mp hc with rfl | hc
      · exact hne hmap.1
      · exact ih ⟨c, hc, hne⟩ hmap.2

/-- A string containing an ASCII uppercase letter is changed by
`strToLower`. -/
theorem strToLower_ne (name : String)
    (h : ∃ c ∈ name.data, 65 ≤ c.toNat ∧ c.toNat ≤ 90) :
    strToLower name ≠ name := by
  intro heq
  obtain ⟨c, hc, h1, h2⟩ := h
  have hdata : name.data.map charToLower = name.data := by
    have := congrArg String.data heq
    simpa [strToLower] using this
  exact map_ne_of_mem_ne name.data ⟨c, hc, charToLower_ne c h1 h2⟩ hdata

/-- A found key belongs to the list. -/
theorem lookupSrc_some_mem :
    ∀ (l : List (String × DataSource)) (k : String) (v : DataSource),
      lookupSrc l k = some v → ∃ p ∈ l, p.1 = k := by
  intro l
  induction l with
  | nil => intro k v h; simp [lookupSrc] at h
  | cons p rest ih =>
      intro k v h
      by_cases hk : p.1 = k
      · exact ⟨p, by simp, hk⟩
      · obtain ⟨q, hq, hqk⟩ := ih k v (by simpa [lookupSrc, hk] using h)
        exact ⟨q, by simp [hq], hqk⟩

/-- Lookup distributes over append: the left part is consulted first. -/
theorem lookupSrc_append :
    ∀ (l1 l2 : List (String × DataSource)) (k : String),
      lookupSrc (l1 ++ l2) k =
        match lookupSrc l1 k with
        | some v => some v
        | none => lookupSrc l2 k := by
  intro l1
  induction l1 with
  | nil => intro l2 k; simp [lookupSrc]
  | cons p rest ih =>
      intro l2 k
      by_cases hk : p.1 = k <;> simp [lookupSrc, hk, ih]

/-- C10: `Register` stores under the lowercased name while `OpenConn`
looks the name up case-sensitively, so after a successful registration of
a name containing an (ASCII) uppercase letter — into a registry whose
existing keys are all lowercase-fixed, as `Register` guarantees —
`OpenConn` with the original spelling fails with the "unknown source"
error and only the lowercased spelling reaches the registered backend's
own `Open`. -/
theorem Register_OpenConn_case_mismatch (name cfg : String) (src : DataSource)
    (m m' : DataSources)
    (hup : ∃ c ∈ name.data, 65 ≤ c.toNat ∧ c.toNat ≤ 90)
    (hinv : ∀ p ∈ m.sources, strToLower p.1 = p.1)
    (hreg : Register name src m = .ok m') :
    OpenConn m' name cfg = .error (unknownSourceMsg name) ∧
    OpenConn m' (strToLower name) cfg = src.openRes cfg := by
  have hne : strToLower name ≠ name := strToLower_ne name hup
  have hold : lookupSrc m.sources (strToLower name) = none := by
    rcases h : lookupSrc m.sources (strToLower name) with _ | v
    · rfl
    · simp [Register, h] at hreg
  have hm' : m' = ⟨m.sources ++ [(strToLower name, src)], m.tableSources⟩ := by
    simp [Register, hold] at hreg
    exact hreg.symm
  have holdname : lookupSrc m.sources name = none := by
    rcases h : lookupSrc m.sources name with _ | v
    · rfl
    · obtain ⟨p, hp, hpk⟩ := lookupSrc_some_mem m.sources name v h
      exact absurd (hpk ▸ hinv p hp) hne
  subst hm'
  constructor
  · simp [OpenConn, lookupSrc_append, holdname, lookupSrc, hne]
  · simp [OpenConn, lookupSrc_append, hold, lookupSrc]

/-- C10 witness: registering `"Csv"` into an empty registry; opening
`"Csv"` fails with the unknown-source error, opening `"csv"` reaches the
backend (whose `Open` returns connection 10). -/
theorem Register_OpenConn_case_mismatch_witness :
    OpenConn ⟨[("csv", dsA)], []⟩ "Csv" "cfg" = .error (unknownSourceMsg "Csv") ∧
    OpenConn ⟨[("csv", dsA)], []⟩ "csv" "cfg" = .ok 10 := by
  obtain ⟨h1, h2⟩ := Register_OpenConn_case_mismatch "Csv" "cfg" dsA ⟨[], []⟩
    ⟨[("csv", dsA)], []⟩ (by decide) (by simp) rfl
  exact ⟨h1, h2⟩

end QlBridge
